import Mathlib

/-!
Verification of the sqlow mapping layer (`src/sqlow/__init__.py`): a shallow
embedding of its value codec, schema handling and CRUD operations, together
with theorems about the behaviour its specification describes.
-/

namespace Sqlow

/-- JSON-serializable values: the universe handled by the `json.dumps` /
`json.loads` calls in `Table._to_row` and `Table._from_row`.  Floating-point
numbers are carried as an opaque payload (`real`); the code under
verification never inspects them. -/
inductive JsonVal where
  | null
  | bool (b : Bool)
  | int (n : Int)
  | real (r : Nat)
  | str (s : String)
  | arr (xs : List JsonVal)
  | obj (kvs : List (String × JsonVal))

/-- Python runtime values as they flow through the table layer.  `jsonStr j`
stands for a Python `str` produced by `json.dumps` applied to the value
denoted by `j`: the cell keeps the parsed structure, which models the json
library's documented guarantee (outside this repository's scope) that
`json.loads` inverts `json.dumps` on serializable values.  `real` carries an
opaque payload standing for a Python float, which the mapping layer only
passes through. -/
inductive PyVal where
  | none
  | bool (b : Bool)
  | int (n : Int)
  | real (r : Nat)
  | str (s : String)
  | jsonStr (j : JsonVal)
  | dict (kvs : List (String × JsonVal))
  | list (xs : List JsonVal)

mutual

/-- Structural equality test on `JsonVal` (python `==` on the corresponding
values, as far as the verified flows use it). -/
def JsonVal.beq : JsonVal → JsonVal → Bool
  | .null, .null => true
  | .bool a, .bool b => a == b
  | .int a, .int b => a == b
  | .real a, .real b => a == b
  | .str a, .str b => a == b
  | .arr xs, .arr ys => JsonVal.beqList xs ys
  | .obj xs, .obj ys => JsonVal.beqKvs xs ys
  | _, _ => false

def JsonVal.beqList : List JsonVal → List JsonVal → Bool
  | [], [] => true
  | x :: xs, y :: ys => JsonVal.beq x y && JsonVal.beqList xs ys
  | _, _ => false

def JsonVal.beqKvs : List (String × JsonVal) → List (String × JsonVal) → Bool
  | [], [] => true
  | (k, v) :: xs, (k2, v2) :: ys => k == k2 && JsonVal.beq v v2 && JsonVal.beqKvs xs ys
  | _, _ => false

end

instance : BEq JsonVal := ⟨JsonVal.beq⟩

/-- Structural equality test on `PyVal` (python `==` restricted to the
comparisons the verified flows perform). -/
def PyVal.beq : PyVal → PyVal → Bool
  | .none, .none => true
  | .bool a, .bool b => a == b
  | .int a, .int b => a == b
  | .real a, .real b => a == b
  | .str a, .str b => a == b
  | .jsonStr a, .jsonStr b => JsonVal.beq a b
  | .dict a, .dict b => JsonVal.beqKvs a b
  | .list a, .list b => JsonVal.beqList a b
  | _, _ => false

instance : BEq PyVal := ⟨PyVal.beq⟩

/-- Errors raised by the Python code (exception classes that can surface from
the module's own statements or from the sqlite3 / json libraries it calls). -/
inductive Err where
  | keyError (m : String)
  | typeError (m : String)
  | valueError (m : String)
  | attributeError (m : String)
  | indexError (m : String)
  | integrityError (m : String)
  | interfaceError (m : String)
  | operationalError (m : String)
  | zeroDivisionError (m : String)
deriving DecidableEq

mutual

/-- Serialization of a `JsonVal` to JSON text.  Only used to model
`json.dumps` applied to a value that is itself an already-dumped string
(unreachable in the verified flows); string escaping is elided there. -/
def render : JsonVal → String
  | .null => "null"
  | .bool b => if b then "true" else "false"
  | .int n => toString n
  | .real r => toString r
  | .str s => "\"" ++ s ++ "\""
  | .arr xs => "[" ++ renderList xs ++ "]"
  | .obj kvs => "\x7b" ++ renderKvs kvs ++ "\x7d"

def renderList : List JsonVal → String
  | [] => ""
  | [x] => render x
  | x :: xs => render x ++ "," ++ renderList xs

def renderKvs : List (String × JsonVal) → String
  | [] => ""
  | [(k, v)] => "\"" ++ k ++ "\":" ++ render v
  | (k, v) :: kvs => "\"" ++ k ++ "\":" ++ render v ++ "," ++ renderKvs kvs

end

/-- `json.dumps`, restricted to the modelled value universe (the python
values that can reach the dumps call in `_to_row`).  Outside this universe
(sets, arbitrary objects) `json.dumps` raises `TypeError`, but such values
do not exist in the model. -/
def dumps : PyVal → JsonVal
  | .none => .null
  | .bool b => .bool b
  | .int n => .int n
  | .real r => .real r
  | .str s => .str s
  | .jsonStr j => .str (render j)
  | .dict kvs => .obj kvs
  | .list xs => .arr xs

/-- The python value denoted by a parsed JSON document. -/
def pyOfJson : JsonVal → PyVal
  | .null => .none
  | .bool b => .bool b
  | .int n => .int n
  | .real r => .real r
  | .str s => .str s
  | .arr xs => .list xs
  | .obj kvs => .dict kvs

/-- `json.loads` applied to a cell read back from storage.  A `jsonStr` cell
is a dumped document, and the library guarantee `loads (dumps v) = v` gives
back its denotation.  A plain `str` cell in a JSON column is not produced by
this layer's own writes; `json.loads` on arbitrary text raises
`JSONDecodeError` (a `ValueError`) unless the text happens to parse, a corner
the model maps wholesale to the error case.  Non-string cells make
`json.loads` raise `TypeError`. -/
def loads : PyVal → Except Err PyVal
  | .jsonStr j => .ok (pyOfJson j)
  | .str _ => .error (.valueError "Expecting value")
  | _ => .error (.typeError "the JSON object must be str, bytes or bytearray")

/-- Python `bool(value)` truthiness, for values a column cell can hold.  The
`real` payload is opaque, so a REAL cell is mapped to `true`; boolean columns
never hold REAL cells in the verified flows. -/
def pyBool : PyVal → Bool
  | .none => false
  | .bool b => b
  | .int n => n != 0
  | .real _ => true
  | .str s => s != ""
  | .jsonStr _ => true
  | .dict kvs => !kvs.isEmpty
  | .list xs => !xs.isEmpty

/-- sqlite3 parameter binding (`conn.execute(sql, params)`): Python bools are
adapted to the integers 1/0; `dict`/`list` objects are not bindable and raise
`InterfaceError`; `None`, ints, floats and strings are stored as passed. -/
def bindVal : PyVal → Except Err PyVal
  | .bool b => .ok (.int (if b then 1 else 0))
  | .dict _ => .error (.interfaceError "Error binding parameter: type not supported")
  | .list _ => .error (.interfaceError "Error binding parameter: type not supported")
  | v => .ok v

/-- Bind every value of a (column, value) list, left to right, propagating
the first binding failure (sqlite3 binds all parameters of a statement before
executing it). -/
def bindParams : List (String × PyVal) → Except Err (List (String × PyVal))
  | [] => .ok []
  | (k, v) :: rest =>
    match bindVal v with
    | .error e => .error e
    | .ok b =>
      match bindParams rest with
      | .error e => .error e
      | .ok r => .ok ((k, b) :: r)

/-- SQLite `=` between stored/bound scalars: `NULL` compares unequal to
everything, including `NULL` itself; otherwise structural equality.
(INTEGER/REAL numeric affinity across types is not modelled: this layer keeps
every column homogeneously typed.) -/
def sqlEq : PyVal → PyVal → Bool
  | .none, _ => false
  | _, .none => false
  | a, b => a == b

/-- Field metadata, as produced per dataclass field by `_get_fields`. -/
structure FieldInfo where
  name : String
  is_json : Bool
  is_bool : Bool
deriving DecidableEq

/-- The per-type schema a `Table` caches at construction: its `_fields` list
(in declaration order). -/
structure Sig where
  fields : List FieldInfo

/-- `self._field_map[k]`: first field of the given name. -/
def Sig.find (s : Sig) (k : String) : Option FieldInfo :=
  s.fields.find? (fun f => f.name == k)

/-- `k in self._field_map`. -/
def Sig.hasField (s : Sig) (k : String) : Bool :=
  (s.find k).isSome

/-- `_has_soft_delete`: the type has a `deleted_at` field. -/
def Sig.soft_delete (s : Sig) : Bool :=
  s.hasField "deleted_at"

/-- `AUTO_FIELDS`, the auto-managed field names. -/
def AUTO_FIELDS : List String := ["id", "created_at", "updated_at", "deleted_at"]

/-- A keyword-argument list / record: field name to python value.  Python
passes these as dicts, whose keys are unique; the model uses association
lists read through their first occurrence. -/
abbrev KV := String × PyVal

/-- A stored row: column name to (bound) cell value, one entry per schema
column for rows written by this layer. -/
abbrev Row := List KV

/-- A reconstructed dataclass instance (`self._cls(**data)`): its field
values in schema order. -/
abbrev Inst := List KV

/-- `row[k]` on a mapping-like association list, read through the first
occurrence of the key: `Option.none` when the key is absent (distinct from a
present SQL `NULL`, which is `some PyVal.none`). -/
def rowGet : List KV → String → Option PyVal
  | [], _ => Option.none
  | kv :: r, k => if kv.1 == k then Option.some kv.2 else rowGet r k

/-- `row[k]` defaulting an absent column to SQL `NULL` (used where the
verified flows guarantee the column exists). -/
def rowGetD (r : List KV) (k : String) : PyVal :=
  (rowGet r k).getD .none

/-- `UPDATE ... SET k = v` applied to one row: every cell of column `k` is
replaced. -/
def setCell (r : Row) (k : String) (v : PyVal) : Row :=
  r.map (fun kv => if kv.1 == k then (kv.1, v) else kv)

/-- Apply a `SET` list left to right. -/
def setCells (r : Row) : List KV → Row
  | [] => r
  | (k, v) :: rest => setCells (setCell r k v) rest

/-- The full database state an operation sees: the table's rows in storage
order (rowid order = insertion order for this schema), plus the positions of
the uuid generator and the wall clock, modelled as counters into caller-given
streams. -/
structure DB where
  rows : List Row
  uuidCtr : Nat
  timeCtr : Nat

/-- `_get_sqlite_type` as the code actually runs it. The module opens with
`from __future__ import annotations` (source line 28), so every dataclass
field's `f.type` is the annotation *string*, never the type object.
`get_origin` of a string is `None`, so no union unwrapping happens, and
`TYPE_MAP.get(field_type, "TEXT")` looks the string up in a dict keyed by
type objects: it always misses and yields "TEXT". -/
def _get_sqlite_type (ann : String) : String :=
  let _ := ann
  "TEXT"

/-- SQLite storage conversion for a column declared TEXT (which, per
`_get_sqlite_type` above, every column of every sqlow table is): a column
with TEXT affinity converts INTEGER and REAL data to its text form before
storing it, while TEXT and NULL pass through. A REAL's text form is its
decimal rendering; we model the payload's rendering opaquely, tagged with
a ".0" suffix as CPython renders whole floats. (BLOBs do not arise:
`bindVal` has already mapped bools to ints and rejected dict/list.) -/
def textAffinity : PyVal → PyVal
  | .int n => .str (toString n)
  | .real r => .str (toString r ++ ".0")
  | v => v

/-- Encoding of one value in `Table._to_row`: `None` passes through,
JSON-mode fields are dumped to JSON text, everything else passes through
unchanged. -/
def encodeCell (f : FieldInfo) (v : PyVal) : PyVal :=
  match v with
  | .none => .none
  | v => if f.is_json then .jsonStr (dumps v) else v

/-- `Table._to_row`: convert caller-supplied field values to SQLite-bindable
values, in argument order.  An unknown field name raises `KeyError`. -/
def _to_row (sig : Sig) : List KV → Except Err (List KV)
  | [] => .ok []
  | (k, v) :: rest =>
    match sig.find k with
    | Option.none => .error (.keyError ("Unknown field: " ++ k))
    | Option.some f =>
      match _to_row sig rest with
      | .error e => .error e
      | .ok r => .ok ((k, encodeCell f v) :: r)

/-- Decoding of one cell in `Table._from_row`: SQL `NULL` becomes `None`,
JSON-mode cells are parsed, boolean-mode cells are coerced with `bool(...)`,
everything else passes through. -/
def decodeCell (f : FieldInfo) (cell : PyVal) : Except Err PyVal :=
  match cell with
  | .none => .ok .none
  | c =>
    if f.is_json then loads c
    else if f.is_bool then .ok (.bool (pyBool c))
    else .ok c

/-- The field loop of `Table._from_row`: `row[f.name]` raises `IndexError`
when the column is absent; otherwise each cell is decoded in schema order. -/
def fromRowGo (r : Row) : List FieldInfo → Except Err Inst
  | [] => .ok []
  | f :: fs =>
    match rowGet r f.name with
    | Option.none => .error (.indexError ("No item with that key: " ++ f.name))
    | Option.some cell =>
      match decodeCell f cell with
      | .error e => .error e
      | .ok v =>
        match fromRowGo r fs with
        | .error e => .error e
        | .ok rest => .ok ((f.name, v) :: rest)

/-- `Table._from_row`: reconstruct a dataclass instance from a stored row. -/
def _from_row (sig : Sig) (r : Row) : Except Err Inst :=
  fromRowGo r sig.fields

/-- `[self._from_row(r) for r in rows]`: decode each row, propagating the
first failure. -/
def fromRows (sig : Sig) : List Row → Except Err (List Inst)
  | [] => .ok []
  | r :: rs =>
    match _from_row sig r with
    | .error e => .error e
    | .ok i =>
      match fromRows sig rs with
      | .error e => .error e
      | .ok rest => .ok (i :: rest)

/-- The row actually stored by an `INSERT`: one cell per schema column, in
schema order, absent columns filled with SQL `NULL`. -/
def completeRow (sig : Sig) (brow : List KV) : Row :=
  sig.fields.map (fun f => (f.name, rowGetD brow f.name))

/-- A positional argument to create/update/delete: a field-value mapping, a
dataclass instance (of any dataclass — the code only checks
`is_dataclass(item)`, never the class itself; `cls` records which class it
was), or any other python object. -/
inductive Arg where
  | map (kvs : List KV)
  | inst (cls : String) (attrs : List KV)
  | other (v : PyVal)

/-- The `TypeError` message of the `else` branch of the argument loops
(`f"Expected dict or {...}, got {...}"`, with the interpolated names
abstracted). -/
def expectedMsg : String := "Expected dict or the bound dataclass"

/-- `{f.name: getattr(item, f.name) for f in self._fields ...}`: extract the
listed fields from an instance's attributes; a missing attribute raises
`AttributeError` (this happens when an instance of a different dataclass is
supplied). -/
def extractFields (skipAuto : Bool) (attrs : List KV) : List FieldInfo → Except Err (List KV)
  | [] => .ok []
  | f :: fs =>
    if skipAuto && AUTO_FIELDS.contains f.name then extractFields skipAuto attrs fs
    else
      match rowGet attrs f.name with
      | Option.none => .error (.attributeError ("object has no attribute " ++ f.name))
      | Option.some v =>
        match extractFields skipAuto attrs fs with
        | .error e => .error e
        | .ok rest => .ok ((f.name, v) :: rest)

/-- The argument-collection loop of `Table.create` (lines 221-229): any
dataclass instance has its non-auto fields extracted, dicts pass through,
anything else raises `TypeError`. -/
def collectCreate (sig : Sig) : List Arg → Except Err (List (List KV))
  | [] => .ok []
  | .inst _ attrs :: rest =>
    match extractFields true attrs sig.fields with
    | .error e => .error e
    | .ok rec =>
      match collectCreate sig rest with
      | .error e => .error e
      | .ok more => .ok (rec :: more)
  | .map kvs :: rest =>
    match collectCreate sig rest with
    | .error e => .error e
    | .ok more => .ok (kvs :: more)
  | .other _ :: _ => .error (.typeError expectedMsg)

/-- `if kwargs: records.append(kwargs)` — keyword arguments form the first
record of a batch when present. -/
def withKwargs (kwargs : List KV) (recs : List (List KV)) : List (List KV) :=
  if kwargs.isEmpty then recs else kwargs :: recs

theorem withKwargs_ne (kwargs : List KV) (recs : List (List KV)) (h : kwargs ≠ []) :
    withKwargs kwargs recs = kwargs :: recs := by
  cases kwargs with
  | nil => exact absurd rfl h
  | cons a tl => rfl

/-- Execution of one `INSERT INTO ... (cols) VALUES (...)`: parameters are
bound, every named column must exist in the table schema, then each bound
value undergoes the TEXT-affinity conversion of its column (every column is
declared TEXT, per `_get_sqlite_type`), the TEXT primary key on `id`
(declared when the type has an `id` field) rejects a duplicate of the
converted value, and the stored row is completed with `NULL` for unnamed
columns. -/
def insertRow (sig : Sig) (row : List KV) (db : DB) : Except Err Unit × DB :=
  match bindParams row with
  | .error e => (.error e, db)
  | .ok brow =>
    let srow := brow.map (fun kv => (kv.1, textAffinity kv.2))
    if brow.any (fun kv => !sig.hasField kv.1) then
      (.error (.operationalError "table has no such column"), db)
    else if sig.hasField "id" && db.rows.any (fun r => sqlEq (rowGetD srow "id") (rowGetD r "id")) then
      (.error (.integrityError "UNIQUE constraint failed: id"), db)
    else
      (.ok (), { db with rows := db.rows ++ [completeRow sig srow] })

/-- `SELECT * FROM t WHERE id = ?` with an already-bound parameter. -/
def fetchById (idc : PyVal) (db : DB) : List Row :=
  db.rows.filter (fun r => sqlEq idc (rowGetD r "id"))

/-- The auto-timestamp assignment of `Table.create` (lines 237-240): append
`created_at` and `updated_at` when the type has them, each reading the clock
once. -/
def autoRow (sig : Sig) (ts : Nat → String) (rowA : List KV) (db : DB) : List KV × DB :=
  match (if sig.hasField "created_at"
    then (rowA ++ [("created_at", PyVal.str (ts db.timeCtr))],
          { db with timeCtr := db.timeCtr + 1 })
    else (rowA, db) : List KV × DB) with
  | (rowB, db2) =>
    if sig.hasField "updated_at"
      then (rowB ++ [("updated_at", PyVal.str (ts db2.timeCtr))],
            { db2 with timeCtr := db2.timeCtr + 1 })
      else (rowB, db2)

/-- The per-record body of `Table.create` (lines 232-251): strip auto fields
from the input, encode, assign a fresh uuid and the auto timestamps, insert,
then re-read by id and decode. -/
def createOne (sig : Sig) (us ts : Nat → String) (rec : List KV) (db : DB) :
    Except Err (List Inst) × DB :=
  match _to_row sig (rec.filter (fun kv => !AUTO_FIELDS.contains kv.1)) with
  | .error e => (.error e, db)
  | .ok row0 =>
    match autoRow sig ts (row0 ++ [("id", PyVal.str (us db.uuidCtr))])
        { db with uuidCtr := db.uuidCtr + 1 } with
    | (rowC, db3) =>
      match insertRow sig rowC db3 with
      | (.error e, db4) => (.error e, db4)
      | (.ok _, db4) =>
        match fetchById (PyVal.str (us db.uuidCtr)) db4 with
        | [] => (.ok [], db4)
        | r :: _ =>
          match _from_row sig r with
          | .error e => (.error e, db4)
          | .ok i => (.ok [i], db4)

/-- The record loop of `Table.create`: each record is processed in order; an
exception aborts the loop but the records already committed stay committed
(each statement runs on its own auto-committed connection). -/
def createGo (sig : Sig) (us ts : Nat → String) : List (List KV) → DB → Except Err (List Inst) × DB
  | [], db => (.ok [], db)
  | rec :: rest, db =>
    match createOne sig us ts rec db with
    | (.error e, db1) => (.error e, db1)
    | (.ok here, db1) =>
      match createGo sig us ts rest db1 with
      | (.error e, db2) => (.error e, db2)
      | (.ok more, db2) => (.ok (here ++ more), db2)

/-- `Table.create`: keyword arguments form the first record, then the
positional arguments are collected (raising before any statement executes),
then each record is inserted. -/
def create (sig : Sig) (us ts : Nat → String) (items : List Arg) (kwargs : List KV)
    (db : DB) : Except Err (List Inst) × DB :=
  match collectCreate sig items with
  | .error e => (.error e, db)
  | .ok recs => createGo sig us ts (withKwargs kwargs recs) db

/-- The WHERE semantics of the select/count/delete statements: AND-combined
equality conditions over bound parameters, plus an optional
`deleted_at IS NULL` clause. -/
def rowMatches (conds : List KV) (softf : Bool) (r : Row) : Bool :=
  conds.all (fun kv => sqlEq kv.2 (rowGetD r kv.1)) &&
    (!softf || rowGetD r "deleted_at" == PyVal.none)

/-- The `LIMIT {per_page} OFFSET {(max(1, page) - 1) * per_page}` clause of
`Table.read`: applied only when a page is given; SQLite treats a negative
LIMIT as unlimited and a negative OFFSET as 0. -/
def applyPage (page : Option Int) (per_page : Int) (l : List Row) : List Row :=
  match page with
  | Option.none => l
  | Option.some p =>
    let off := (max 1 p - 1) * per_page
    let l1 := l.drop off.toNat
    if per_page < 0 then l1 else l1.take per_page.toNat

/-- `Table.read`: encode the keyword filters, select the matching rows
(excluding soft-deleted rows unless requested), paginate, decode.  Only a
`SELECT` executes: the state comes back unchanged. -/
def read (sig : Sig) (include_deleted : Bool) (page : Option Int) (per_page : Int)
    (kwargs : List KV) (db : DB) : Except Err (List Inst) × DB :=
  match _to_row sig kwargs with
  | .error e => (.error e, db)
  | .ok conds =>
    match bindParams conds with
    | .error e => (.error e, db)
    | .ok bconds =>
      let softf := sig.soft_delete && !include_deleted
      let sel := applyPage page per_page (db.rows.filter (rowMatches bconds softf))
      (fromRows sig sel, db)

/-- The argument-collection loop of `Table.update` (lines 311-317): a
dataclass instance contributes all of its fields, dicts pass through,
anything else raises `TypeError`. -/
def collectUpdate (sig : Sig) : List Arg → Except Err (List (List KV))
  | [] => .ok []
  | .inst _ attrs :: rest =>
    match extractFields false attrs sig.fields with
    | .error e => .error e
    | .ok rec =>
      match collectUpdate sig rest with
      | .error e => .error e
      | .ok more => .ok (rec :: more)
  | .map kvs :: rest =>
    match collectUpdate sig rest with
    | .error e => .error e
    | .ok more => .ok (kvs :: more)
  | .other _ :: _ => .error (.typeError expectedMsg)

/-- The per-record body of `Table.update` (lines 320-345): an absent or
`None` id raises `ValueError`; `id`/`created_at`/`deleted_at` are excluded
from the SET data; a record with nothing to set and no `updated_at` to bump
is skipped; `updated_at` is forced to the current timestamp when the type has
it; then `UPDATE ... WHERE id = ?` runs and the row is re-read. -/
def updateOne (sig : Sig) (ts : Nat → String) (rec : List KV) (db : DB) :
    Except Err (List Inst) × DB :=
  match rowGet rec "id" with
  | Option.none => (.error (.valueError "id required for update"), db)
  | Option.some idv =>
    if idv == PyVal.none then (.error (.valueError "id required for update"), db)
    else
    let upd := rec.filter (fun kv => !(["id", "created_at", "deleted_at"].contains kv.1))
    if upd.isEmpty && !sig.hasField "updated_at" then (.ok [], db)
    else
      match _to_row sig (upd.filter (fun kv => kv.1 != "updated_at")) with
      | .error e => (.error e, db)
      | .ok row0 =>
        let p1 := if sig.hasField "updated_at"
          then (row0 ++ [("updated_at", PyVal.str (ts db.timeCtr))],
                { db with timeCtr := db.timeCtr + 1 })
          else (row0, db)
        if p1.1.isEmpty then (.ok [], p1.2)
        else
          match bindParams p1.1 with
          | .error e => (.error e, p1.2)
          | .ok brow =>
            match bindVal idv with
            | .error e => (.error e, p1.2)
            | .ok bid =>
              let sbrow := brow.map (fun kv => (kv.1, textAffinity kv.2))
              let db2 : DB := { p1.2 with
                rows := p1.2.rows.map (fun r =>
                  if sqlEq bid (rowGetD r "id") then setCells r sbrow else r) }
              match fetchById bid db2 with
              | [] => (.ok [], db2)
              | r :: _ =>
                match _from_row sig r with
                | .error e => (.error e, db2)
                | .ok i => (.ok [i], db2)

/-- The record loop of `Table.update`. -/
def updateGo (sig : Sig) (ts : Nat → String) : List (List KV) → DB → Except Err (List Inst) × DB
  | [], db => (.ok [], db)
  | rec :: rest, db =>
    match updateOne sig ts rec db with
    | (.error e, db1) => (.error e, db1)
    | (.ok here, db1) =>
      match updateGo sig ts rest db1 with
      | (.error e, db2) => (.error e, db2)
      | (.ok more, db2) => (.ok (here ++ more), db2)

/-- `Table.update`. -/
def update (sig : Sig) (ts : Nat → String) (items : List Arg) (kwargs : List KV)
    (db : DB) : Except Err (List Inst) × DB :=
  match collectUpdate sig items with
  | .error e => (.error e, db)
  | .ok recs => updateGo sig ts (withKwargs kwargs recs) db

/-- The argument-collection loop of `Table.delete` (lines 365-376): from a
dataclass instance only `getattr(item, "id", None)` is used, and a missing or
`None` id raises `ValueError` already during collection, before any
statement runs. -/
def collectDelete : List Arg → Except Err (List (List KV))
  | [] => .ok []
  | .inst _ attrs :: rest =>
    let item_id := (rowGet attrs "id").getD PyVal.none
    if item_id == PyVal.none then .error (.valueError "id required for delete")
    else
      match collectDelete rest with
      | .error e => .error e
      | .ok more => .ok ([("id", item_id)] :: more)
  | .map kvs :: rest =>
    match collectDelete rest with
    | .error e => .error e
    | .ok more => .ok (kvs :: more)
  | .other _ :: _ => .error (.typeError expectedMsg)

/-- The per-filter body of batched `Table.delete` (lines 381-398): first read
the matching records (with `include_deleted=hard`), skip if nothing matched,
then soft-delete (`UPDATE ... SET deleted_at = ? WHERE conds AND deleted_at
IS NULL`) or hard-delete (`DELETE FROM ... WHERE conds`). -/
def deleteOne (sig : Sig) (ts : Nat → String) (hard : Bool) (rec : List KV) (db : DB) :
    Except Err (List Inst) × DB :=
  match read sig hard Option.none 10 rec db with
  | (.error e, db1) => (.error e, db1)
  | (.ok found, db1) =>
    if found.isEmpty then (.ok [], db1)
    else
      match _to_row sig rec with
      | .error e => (.error e, db1)
      | .ok row =>
        match bindParams row with
        | .error e => (.error e, db1)
        | .ok brow =>
          if sig.soft_delete && !hard then
            let rows1 := db1.rows.map (fun r =>
              if rowMatches brow true r
              then setCell r "deleted_at" (textAffinity (.str (ts db1.timeCtr))) else r)
            (.ok found, { db1 with timeCtr := db1.timeCtr + 1, rows := rows1 })
          else
            let rows1 := db1.rows.filter (fun r => !rowMatches brow false r)
            (.ok found, { db1 with rows := rows1 })

/-- The filter loop of batched `Table.delete`, accumulating the pre-deletion
reads of every filter. -/
def deleteGo (sig : Sig) (ts : Nat → String) (hard : Bool) :
    List (List KV) → DB → Except Err (List Inst) × DB
  | [], db => (.ok [], db)
  | rec :: rest, db =>
    match deleteOne sig ts hard rec db with
    | (.error e, db1) => (.error e, db1)
    | (.ok here, db1) =>
      match deleteGo sig ts hard rest db1 with
      | (.error e, db2) => (.error e, db2)
      | (.ok more, db2) => (.ok (here ++ more), db2)

/-- `Table.delete`: with filters/records, batch per filter; with none,
operate table-wide (lines 401-412): read everything (respecting `hard` for
visibility), then soft-delete every live row or delete all rows. -/
def delete (sig : Sig) (ts : Nat → String) (items : List Arg) (hard : Bool)
    (kwargs : List KV) (db : DB) : Except Err (List Inst) × DB :=
  match collectDelete items with
  | .error e => (.error e, db)
  | .ok recs0 =>
    let recs := withKwargs kwargs recs0
    if recs.isEmpty then
      match read sig hard Option.none 10 [] db with
      | (.error e, db1) => (.error e, db1)
      | (.ok all, db1) =>
        if all.isEmpty then (.ok [], db1)
        else if sig.soft_delete && !hard then
          let rows1 := db1.rows.map (fun r =>
            if rowGetD r "deleted_at" == PyVal.none
            then setCell r "deleted_at" (textAffinity (.str (ts db1.timeCtr))) else r)
          (.ok all, { db1 with timeCtr := db1.timeCtr + 1, rows := rows1 })
        else (.ok all, { db1 with rows := [] })
    else deleteGo sig ts hard recs db

/-- `Count`, the pagination info returned by `Table.count`. -/
structure Count where
  total : Int
  pages : Int
  per_page : Int
deriving DecidableEq

/-- `Table.count`: same condition building as `read`, wrapped in
`SELECT COUNT(*)`; `pages = (total + per_page - 1) // per_page` (Python floor
division, raising `ZeroDivisionError` on a zero `per_page`) when `total > 0`,
else `0`.  Only a `SELECT` executes: the state comes back unchanged. -/
def count (sig : Sig) (include_deleted : Bool) (per_page : Int) (kwargs : List KV)
    (db : DB) : Except Err Count × DB :=
  match _to_row sig kwargs with
  | .error e => (.error e, db)
  | .ok conds =>
    match bindParams conds with
    | .error e => (.error e, db)
    | .ok bconds =>
      let softf := sig.soft_delete && !include_deleted
      let total : Int := (db.rows.filter (rowMatches bconds softf)).length
      if 0 < total then
        if per_page == 0 then
          (.error (.zeroDivisionError "integer division or modulo by zero"), db)
        else
          (.ok ⟨total, Int.fdiv (total + per_page - 1) per_page, per_page⟩, db)
      else (.ok ⟨total, 0, per_page⟩, db)

/-! ### Concrete fixtures -/

/-- A concrete uuid stream. -/
def usS : Nat → String := fun n => "u" ++ toString n

/-- A concrete, strictly advancing clock stream. -/
def tsS : Nat → String := fun n => "t" ++ toString n

/-- The empty table state. -/
def dbEmpty : DB := ⟨[], 0, 0⟩

/-- The schema of the spec's scenario type
`{id, created_at, updated_at, deleted_at, name: text}`. -/
def sigComponent : Sig :=
  ⟨[⟨"id", false, false⟩, ⟨"created_at", false, false⟩, ⟨"updated_at", false, false⟩,
    ⟨"deleted_at", false, false⟩, ⟨"name", false, false⟩]⟩

/-- A minimal schema without auto timestamps or soft delete. -/
def sigIdName : Sig := ⟨[⟨"id", false, false⟩, ⟨"name", false, false⟩]⟩

/-- A minimal soft-delete-capable schema. -/
def sigSoftIdName : Sig :=
  ⟨[⟨"id", false, false⟩, ⟨"deleted_at", false, false⟩, ⟨"name", false, false⟩]⟩

/-- A live stored row for `sigSoftIdName`. -/
def rowA : Row := [("id", .str "a"), ("deleted_at", .none), ("name", .str "x")]

/-- A one-row table state for `sigSoftIdName`. -/
def dbA : DB := ⟨[rowA], 0, 0⟩

/-- A one-row table state for `sigIdName`. -/
def dbB : DB := ⟨[[("id", .str "a"), ("name", .str "old")]], 0, 0⟩

theorem sqlEq_str_self (x : String) : sqlEq (.str x) (.str x) = true := by
  simp [sqlEq, BEq.beq, PyVal.beq]

theorem sqlEq_str_of_ne (x : String) (c : PyVal) (h : c ≠ .str x) :
    sqlEq (.str x) c = false := by
  cases c with
  | str s =>
    show (x == s) = false
    exact beq_eq_false_iff_ne.2 fun e => h (by rw [e])
  | none => rfl
  | bool b => rfl
  | int n => rfl
  | real r => rfl
  | jsonStr j => rfl
  | dict kvs => rfl
  | list xs => rfl

theorem map_id_on {α} (f : α → α) (l : List α) (h : ∀ x ∈ l, f x = x) :
    l.map f = l := by
  induction l with
  | nil => rfl
  | cons a l ih =>
    simp only [List.map_cons, h a (by simp)]
    exact congrArg _ (ih fun x hx => h x (by simp [hx]))

/-- Filtering a list around one distinguished positive element whose
companions are all negative keeps exactly that element. -/
theorem filter_middle {α} (p : α → Bool) (l1 l2 : List α) (a : α)
    (h1 : ∀ x ∈ l1 ++ l2, p x = false) (ha : p a = true) :
    (l1 ++ a :: l2).filter p = [a] := by
  have hl1 : l1.filter p = [] :=
    List.filter_eq_nil_iff.2 fun x hx => by simp [h1 x (by simp [hx])]
  have hl2 : l2.filter p = [] :=
    List.filter_eq_nil_iff.2 fun x hx => by simp [h1 x (by simp [hx])]
  simp [List.filter_append, List.filter_cons, ha, hl1, hl2]

theorem rowGet_setCell_self (r : Row) (k : String) (v : PyVal) :
    rowGet (setCell r k v) k = (rowGet r k).map (fun _ => v) := by
  induction r with
  | nil => rfl
  | cons kv r ih =>
    cases hb : (kv.1 == k) <;> simp [setCell, rowGet, hb] <;>
      simpa [setCell] using ih

theorem rowGet_setCell_ne (r : Row) (k k2 : String) (v : PyVal) (h : k2 ≠ k) :
    rowGet (setCell r k v) k2 = rowGet r k2 := by
  induction r with
  | nil => rfl
  | cons kv r ih =>
    cases hb : (kv.1 == k) with
    | false =>
      cases hc : (kv.1 == k2) <;> simp [setCell, rowGet, hb, hc] <;>
        simpa [setCell] using ih
    | true =>
      have hk : kv.1 = k := eq_of_beq hb
      have hc : (kv.1 == k2) = false := beq_eq_false_iff_ne.2 (by rw [hk]; exact fun e => h e.symm)
      have hc2 : (k == k2) = false := by rw [← hk]; exact hc
      simp [setCell, rowGet, hb, hc, hc2] <;> simpa [setCell] using ih

/-! ### Error-shape lemmas (which exception class each stage can raise) -/

theorem _to_row_err_shape (sig : Sig) (kvs : List KV) (e : Err)
    (h : _to_row sig kvs = .error e) : ∃ m, e = .keyError m := by
  induction kvs with
  | nil => simp [_to_row] at h
  | cons kv rest ih =>
    rw [_to_row] at h
    rcases kv with ⟨k, v⟩
    cases hf : sig.find k with
    | none => rw [hf] at h; exact ⟨"Unknown field: " ++ k, by simpa using h.symm⟩
    | some f =>
      rw [hf] at h
      cases ht : _to_row sig rest with
      | error e2 => rw [ht] at h; simp at h; exact ih (h ▸ ht)
      | ok r => rw [ht] at h; simp at h

theorem bindVal_err_shape (v : PyVal) (e : Err) (h : bindVal v = .error e) :
    ∃ m, e = .interfaceError m := by
  cases v <;> simp_all [bindVal] <;> exact ⟨_, h.symm⟩

theorem bindParams_err_shape (l : List KV) (e : Err) (h : bindParams l = .error e) :
    ∃ m, e = .interfaceError m := by
  induction l with
  | nil => simp [bindParams] at h
  | cons kv rest ih =>
    rw [bindParams] at h
    cases hb : bindVal kv.2 with
    | error e2 =>
      rw [hb] at h; simp at h
      exact h ▸ bindVal_err_shape kv.2 e2 hb
    | ok b =>
      rw [hb] at h
      cases ht : bindParams rest with
      | error e2 => rw [ht] at h; simp at h; exact ih (h ▸ ht)
      | ok r => rw [ht] at h; simp at h

theorem loads_err_ne_argTE (c : PyVal) (e : Err) (h : loads c = .error e) :
    e ≠ .typeError expectedMsg := by
  cases c <;> simp_all [loads] <;> intro hc <;> rw [hc] at h <;>
    simp [expectedMsg] at h

/-- For a non-`NULL` cell, `decodeCell` reduces to the json/bool dispatch. -/
theorem decodeCell_of_ne (f : FieldInfo) (c : PyVal) (h : c ≠ .none) :
    decodeCell f c = if f.is_json then loads c
      else if f.is_bool then .ok (.bool (pyBool c)) else .ok c := by
  cases c
  case none => exact absurd rfl h
  all_goals rfl

theorem decodeCell_err_ne_argTE (f : FieldInfo) (c : PyVal) (e : Err)
    (h : decodeCell f c = .error e) : e ≠ .typeError expectedMsg := by
  by_cases hc : c = PyVal.none
  · subst hc; simp [decodeCell] at h
  · rw [decodeCell_of_ne f c hc] at h
    split at h
    · exact loads_err_ne_argTE _ _ h
    · split at h <;> simp at h

theorem fromRowGo_err_ne_argTE (r : Row) (fs : List FieldInfo) (e : Err)
    (h : fromRowGo r fs = .error e) : e ≠ .typeError expectedMsg := by
  induction fs with
  | nil => simp [fromRowGo] at h
  | cons f fs ih =>
    rw [fromRowGo] at h
    cases hg : rowGet r f.name with
    | none =>
      rw [hg] at h; simp at h
      intro hc; rw [hc] at h; simp at h
    | some cell =>
      rw [hg] at h
      dsimp only at h
      cases hd : decodeCell f cell with
      | error e2 =>
        rw [hd] at h; simp at h
        exact h ▸ decodeCell_err_ne_argTE f cell e2 hd
      | ok v =>
        rw [hd] at h
        cases ht : fromRowGo r fs with
        | error e2 => rw [ht] at h; simp at h; exact ih (h ▸ ht)
        | ok rest => rw [ht] at h; simp at h

theorem insertRow_err_ne_argTE (sig : Sig) (row : List KV) (db : DB) (e : Err)
    (h : (insertRow sig row db).1 = .error e) : e ≠ .typeError expectedMsg := by
  rw [insertRow] at h
  cases hb : bindParams row with
  | error e2 =>
    rw [hb] at h; simp at h
    obtain ⟨m, hm⟩ := bindParams_err_shape row e2 hb
    rw [← h, hm]; simp
  | ok brow =>
    rw [hb] at h
    dsimp only at h
    split at h
    · simp at h; intro hc; rw [hc] at h; simp at h
    · split at h
      · simp at h; intro hc; rw [hc] at h; simp at h
      · simp at h

theorem createOne_err_ne_argTE (sig : Sig) (us ts : Nat → String) (rec : List KV)
    (db : DB) (e : Err) (h : (createOne sig us ts rec db).1 = .error e) :
    e ≠ .typeError expectedMsg := by
  rw [createOne] at h
  cases ht : _to_row sig (rec.filter (fun kv => !AUTO_FIELDS.contains kv.1)) with
  | error e2 =>
    rw [ht] at h; simp at h
    obtain ⟨m, hm⟩ := _to_row_err_shape _ _ _ ht
    rw [← h, hm]; simp
  | ok row0 =>
    rw [ht] at h
    dsimp only at h
    cases hA : autoRow sig ts (row0 ++ [("id", PyVal.str (us db.uuidCtr))])
        { db with uuidCtr := db.uuidCtr + 1 } with
    | mk rowC db3 =>
      rw [hA] at h
      dsimp only at h
      cases hi : insertRow sig rowC db3 with
      | mk ires idb =>
        cases ires with
        | error e2 =>
          rw [hi] at h; simp at h
          refine h ▸ insertRow_err_ne_argTE sig rowC db3 e2 ?_
          rw [hi]
        | ok u =>
          rw [hi] at h
          dsimp only at h
          cases hfe : fetchById (PyVal.str (us db.uuidCtr)) idb with
          | nil => rw [hfe] at h; simp at h
          | cons r rest =>
            rw [hfe] at h
            dsimp only at h
            cases hf : _from_row sig r with
            | error e2 =>
              rw [hf] at h; simp at h
              exact h ▸ fromRowGo_err_ne_argTE _ _ _ hf
            | ok i => rw [hf] at h; simp at h

theorem createGo_err_ne_argTE (sig : Sig) (us ts : Nat → String) (recs : List (List KV))
    (db : DB) (e : Err) (h : (createGo sig us ts recs db).1 = .error e) :
    e ≠ .typeError expectedMsg := by
  induction recs generalizing db with
  | nil => simp [createGo] at h
  | cons rec rest ih =>
    rw [createGo] at h
    cases h1 : createOne sig us ts rec db with
    | mk res1 db1 =>
      cases res1 with
      | error e2 =>
        rw [h1] at h; simp at h
        exact h ▸ createOne_err_ne_argTE _ _ _ _ _ _ (by rw [h1])
      | ok here =>
        rw [h1] at h
        dsimp only at h
        cases h2 : createGo sig us ts rest db1 with
        | mk res2 db2 =>
          cases res2 with
          | error e2 =>
            rw [h2] at h; simp at h
            refine h ▸ ih db1 ?_
            rw [h2]; simp [h]
          | ok more => rw [h2] at h; simp at h

/-! ### C1 -/

/-- C9: for every table state and every combination of filters and options,
`read` and `count` leave the stored state (rows, uuid position, clock
position) entirely unchanged. -/
theorem claim_C9_read_count_frame (sig : Sig) (incl : Bool) (page : Option Int)
    (pp : Int) (kwargs : List KV) (db : DB) :
    (read sig incl page pp kwargs db).2 = db ∧ (count sig incl pp kwargs db).2 = db := by
  constructor
  · unfold read
    split
    · rfl
    · split <;> rfl
  · unfold count
    split
    · rfl
    · split
      · rfl
      · dsimp only
        split
        · split <;> rfl
        · rfl

/-! ### C10 -/

/-- C10: `create` and `update` called with no positional and no keyword
arguments return the empty list and leave the state untouched; `delete` with
no arguments instead operates table-wide, as the concrete soft-delete-all
instance shows. -/
theorem claim_C10_empty_call (sig : Sig) (us ts : Nat → String) (db : DB) :
    create sig us ts [] [] db = (.ok [], db) ∧
    update sig ts [] [] db = (.ok [], db) ∧
    delete sigSoftIdName tsS [] false [] dbA =
      (.ok [rowA], ⟨[[("id", .str "a"), ("deleted_at", .str "t0"), ("name", .str "x")]], 0, 1⟩) :=
  ⟨rfl, rfl, rfl⟩

/-! ### C3 -/

/-- C3 counterexample: an instance of a different (unbound) dataclass type is
not rejected with a type error — `create` reads the bound type's fields off
it with `getattr` and raises `AttributeError` for the first missing one. -/
theorem claim_C3_cex :
    create sigComponent usS tsS [.inst "project" [("id", PyVal.none), ("title", PyVal.str "x")]]
        [] dbEmpty =
      (.error (.attributeError "object has no attribute name"), dbEmpty) ∧
    Err.attributeError "object has no attribute name" ≠ Err.typeError expectedMsg :=
  ⟨rfl, fun h => Err.noConfusion h⟩

theorem extractFields_err_shape (skipAuto : Bool) (attrs : List KV)
    (fs : List FieldInfo) (e : Err) (h : extractFields skipAuto attrs fs = .error e) :
    ∃ m, e = .attributeError m := by
  induction fs with
  | nil => simp [extractFields] at h
  | cons f fs ih =>
    rw [extractFields] at h
    split at h
    · exact ih h
    · cases hg : rowGet attrs f.name with
      | none => rw [hg] at h; simp at h; exact ⟨_, h.symm⟩
      | some v =>
        rw [hg] at h
        cases ht : extractFields skipAuto attrs fs with
        | error e3 => rw [ht] at h; simp at h; exact ih (h ▸ ht)
        | ok r => rw [ht] at h; simp at h

/-- C3 (amended): a positional argument to `create` is rejected with the
argument `TypeError` — before any statement executes and with the state
unchanged — if and only if it is neither a field-value mapping nor a
dataclass instance (of any dataclass type, bound or not).  A foreign
dataclass instance is instead processed by attribute extraction, which
raises `AttributeError` (not `TypeError`) when a bound field is missing and
is accepted silently when all bound fields are present. -/
theorem claim_C3_amended (sig : Sig) (us ts : Nat → String) (db : DB) (a : Arg) :
    create sig us ts [a] [] db = (.error (.typeError expectedMsg), db) ↔
      ∃ v, a = .other v := by
  constructor
  · intro h
    cases a with
    | other v => exact ⟨v, rfl⟩
    | map kvs =>
      exfalso
      rw [create] at h
      rw [show collectCreate sig [Arg.map kvs] = .ok [kvs] from rfl] at h
      dsimp only at h
      have h1 : (createGo sig us ts [kvs] db).1 = .error (.typeError expectedMsg) := by
        rw [show withKwargs ([] : List KV) [kvs] = [kvs] from rfl] at h
        rw [h]
      exact createGo_err_ne_argTE sig us ts [kvs] db _ h1 rfl
    | inst c attrs =>
      exfalso
      rw [create] at h
      cases hc : collectCreate sig [Arg.inst c attrs] with
      | error e =>
        rw [hc] at h
        have he : e = .typeError expectedMsg := by
          simpa using congrArg Prod.fst h
        rw [collectCreate] at hc
        cases hx : extractFields true attrs sig.fields with
        | error e2 =>
          rw [hx] at hc
          have h2 : e2 = e := by simpa using hc
          obtain ⟨m, hm⟩ := extractFields_err_shape true attrs sig.fields e2 hx
          rw [h2, he] at hm
          simp at hm
        | ok rec =>
          rw [hx] at hc
          simp [collectCreate] at hc
      | ok recs =>
        rw [hc] at h
        dsimp only at h
        have h1 : (createGo sig us ts recs db).1 = .error (.typeError expectedMsg) := by
          rw [show withKwargs ([] : List KV) recs = recs from rfl] at h
          rw [h]
        exact createGo_err_ne_argTE sig us ts recs db _ h1 rfl
  · rintro ⟨v, rfl⟩
    rfl

/-! ### C5 -/

theorem beq_none_iff (v : PyVal) : (v == PyVal.none) = true ↔ v = PyVal.none := by
  cases v <;> simp [BEq.beq, PyVal.beq]

/-- A collection prefix that succeeds followed by an id-less instance makes
the whole `delete` collection loop raise, regardless of what follows. -/
theorem collectDelete_middle_err (pre : List Arg) (rs : List (List KV)) (post : List Arg)
    (c : String) (attrs : List KV)
    (hpre : collectDelete pre = .ok rs)
    (hid : (rowGet attrs "id").getD PyVal.none = PyVal.none) :
    collectDelete (pre ++ Arg.inst c attrs :: post) =
      .error (.valueError "id required for delete") := by
  induction pre generalizing rs with
  | nil =>
    rw [List.nil_append, collectDelete]
    simp only [hid]
    rfl
  | cons a pre ih =>
    cases a with
    | other v => rw [collectDelete] at hpre; simp at hpre
    | map kvs =>
      rw [collectDelete] at hpre
      cases hr : collectDelete pre with
      | error e => rw [hr] at hpre; simp at hpre
      | ok more =>
        rw [List.cons_append, collectDelete, ih more hr]
    | inst c2 attrs2 =>
      rw [collectDelete] at hpre
      split at hpre
      · simp at hpre
      · cases hr : collectDelete pre with
        | error e => rw [hr] at hpre; simp at hpre
        | ok more =>
          rw [List.cons_append, collectDelete]
          split
          · simp_all
          · rw [ih more hr]

/-- C5 counterexample: in a batch `update` whose second record lacks an id,
the value error is raised only when that record is processed — the first
record of the batch has already been committed, so the claim's "no record in
the same batch is modified, regardless of the failing record's position" is
false. -/
theorem claim_C5_cex :
    update sigIdName tsS [.map [("name", PyVal.str "x")]]
        [("id", PyVal.str "a"), ("name", PyVal.str "new")] dbB =
      (.error (.valueError "id required for update"),
       ⟨[[("id", PyVal.str "a"), ("name", PyVal.str "new")]], 0, 0⟩) ∧
    dbB = ⟨[[("id", PyVal.str "a"), ("name", PyVal.str "old")]], 0, 0⟩ :=
  ⟨rfl, rfl⟩

/-- C5 (amended): an id-less record makes the call fail with the value
error.  For `delete` the check runs in the argument-collection loop, before
any statement: the state is unchanged whatever the failing instance's
position.  For `update` the check runs per record during processing, so the
call with the id-less record as its only record leaves the state unchanged,
but in a larger batch the records before the failing one have already been
committed (see the counterexample). -/
theorem claim_C5_amended (sig : Sig) (ts : Nat → String) (hard : Bool)
    (kwargs rec : List KV) (db : DB) (pre post : List Arg) (c : String)
    (attrs : List KV) (rs : List (List KV))
    (hpre : collectDelete pre = .ok rs)
    (hid : (rowGet attrs "id").getD PyVal.none = PyVal.none)
    (hrec : rec ≠ [])
    (hrid : rowGet rec "id" = Option.none ∨ rowGet rec "id" = Option.some PyVal.none) :
    delete sig ts (pre ++ Arg.inst c attrs :: post) hard kwargs db =
      (.error (.valueError "id required for delete"), db) ∧
    update sig ts [] rec db = (.error (.valueError "id required for update"), db) := by
  constructor
  · rw [delete, collectDelete_middle_err pre rs post c attrs hpre hid]
  · rw [update]
    rw [show collectUpdate sig [] = .ok [] from rfl]
    dsimp only
    rw [withKwargs_ne _ _ hrec]
    rw [updateGo, updateOne]
    rcases hrid with hg | hg <;> rw [hg] <;> rfl

/-- Witness for C5 (amended). -/
theorem claim_C5_amended_witness :
    delete sigIdName tsS [Arg.map [("id", PyVal.str "b")], Arg.inst "component" [("id", PyVal.none)]]
        false [] dbB = (.error (.valueError "id required for delete"), dbB) ∧
    update sigIdName tsS [] [("name", PyVal.int 1)] dbB =
      (.error (.valueError "id required for update"), dbB) := by
  have h := claim_C5_amended sigIdName tsS false [] [("name", PyVal.int 1)] dbB
    [Arg.map [("id", PyVal.str "b")]] [] "component" [("id", PyVal.none)]
    [[("id", PyVal.str "b")]] rfl rfl (by simp) (Or.inl rfl)
  simpa using h

/-! ### C8 -/

/-- A call with only keyword arguments processes the single record they
form. -/
theorem create_single_kwargs (sig : Sig) (us ts : Nat → String) (kw : KV)
    (tl : List KV) (db : DB) :
    create sig us ts [] (kw :: tl) db = createGo sig us ts [kw :: tl] db := rfl

theorem update_single_kwargs (sig : Sig) (ts : Nat → String) (kw : KV)
    (tl : List KV) (db : DB) :
    update sig ts [] (kw :: tl) db = updateGo sig ts [kw :: tl] db := rfl

theorem delete_single_kwargs (sig : Sig) (ts : Nat → String) (hard : Bool) (kw : KV)
    (tl : List KV) (db : DB) :
    delete sig ts [] hard (kw :: tl) db = deleteGo sig ts hard [kw :: tl] db := rfl

/-- C8 counterexample: `create` strips the four auto-managed names from its
input before encoding, so supplying `deleted_at` to a type whose schema does
not contain it is not rejected with the unknown-field error — the call
succeeds and inserts a row (the state changes). -/
theorem claim_C8_cex :
    sigIdName.hasField "deleted_at" = false ∧
    create sigIdName usS tsS [] [("deleted_at", PyVal.str "boom")] dbEmpty =
      (.ok [[("id", PyVal.str "u0"), ("name", PyVal.none)]],
       ⟨[[("id", PyVal.str "u0"), ("name", PyVal.none)]], 1, 0⟩) :=
  ⟨rfl, rfl⟩

/-- C8 (amended): a single-record call that supplies a field name outside
the bound type's schema fails before any statement executes and leaves the
state unchanged.  `read`, `count` and `delete` raise the unknown-field
error for any such name.  `create` raises it unless the name is one of the
four auto-managed names, which it strips silently (see the counterexample).
`update` raises it when the record resolves an id and the name is none of
`id`/`created_at`/`deleted_at`/`updated_at` (those are stripped or
overwritten); an id-less update record raises the missing-identity value
error instead. -/
theorem claim_C8_amended (sig : Sig) (us ts : Nat → String) (db : DB)
    (k : String) (v : PyVal) (incl hard : Bool) (page : Option Int) (pp : Int)
    (idv : PyVal) (hk : sig.hasField k = false) :
    read sig incl page pp [(k, v)] db = (.error (.keyError ("Unknown field: " ++ k)), db) ∧
    count sig incl pp [(k, v)] db = (.error (.keyError ("Unknown field: " ++ k)), db) ∧
    delete sig ts [] hard [(k, v)] db = (.error (.keyError ("Unknown field: " ++ k)), db) ∧
    (AUTO_FIELDS.contains k = false →
      create sig us ts [] [(k, v)] db = (.error (.keyError ("Unknown field: " ++ k)), db)) ∧
    ((idv == PyVal.none) = false →
      (["id", "created_at", "deleted_at", "updated_at"].contains k) = false →
      update sig ts [] [("id", idv), (k, v)] db =
        (.error (.keyError ("Unknown field: " ++ k)), db)) ∧
    (k ≠ "id" →
      update sig ts [] [(k, v)] db = (.error (.valueError "id required for update"), db)) := by
  have hfind : sig.find k = Option.none := by
    rcases hf : sig.find k with _ | f
    · rfl
    · rw [Sig.hasField, hf] at hk; simp at hk
  have htr : _to_row sig [(k, v)] = .error (.keyError ("Unknown field: " ++ k)) := by
    rw [_to_row, hfind]
  refine ⟨?_, ?_, ?_, ?_, ?_, ?_⟩
  · rw [read, htr]
  · rw [count, htr]
  · rw [delete_single_kwargs, deleteGo, deleteOne, read, htr]
  · intro hauto
    have hmem : k ∉ AUTO_FIELDS := by simpa using hauto
    rw [create_single_kwargs, createGo, createOne]
    rw [show List.filter (fun kv => !AUTO_FIELDS.contains kv.1) [(k, v)] = [(k, v)] by
      simp [List.filter, hmem]]
    rw [htr]
  · intro hidv hk4
    have hm : ¬(k = "id" ∨ k = "created_at" ∨ k = "deleted_at" ∨ k = "updated_at") := by
      simpa using hk4
    push_neg at hm
    obtain ⟨n1, n2, n3, n4⟩ := hm
    rw [update_single_kwargs, updateGo, updateOne]
    rw [show rowGet [("id", idv), (k, v)] "id" = Option.some idv by simp [rowGet]]
    dsimp only
    rw [if_neg (by simp [hidv])]
    rw [show List.filter (fun kv => !(["id", "created_at", "deleted_at"].contains kv.1))
        [("id", idv), (k, v)] = [(k, v)] by simp [List.filter, n1, n2, n3]]
    rw [if_neg (by simp)]
    rw [show List.filter (fun kv => kv.1 != "updated_at") [(k, v)] = [(k, v)] by
      simp [List.filter, bne, beq_eq_false_iff_ne.2 n4]]
    rw [htr]
  · intro hkid
    rw [update_single_kwargs, updateGo, updateOne]
    rw [show rowGet [(k, v)] "id" = Option.none by
      simp [rowGet, beq_eq_false_iff_ne.2 hkid]]

/-! ### C2 -/

theorem map_if_middle {α} (p : α → Bool) (g : α → α) (l1 l2 : List α) (a : α)
    (h1 : ∀ x ∈ l1 ++ l2, p x = false) (ha : p a = true) :
    (l1 ++ a :: l2).map (fun x => if p x then g x else x) = l1 ++ g a :: l2 := by
  rw [List.map_append, List.map_cons, if_pos ha]
  rw [map_id_on _ l1 (fun x hx => by rw [h1 x (by simp [hx])]; simp)]
  rw [map_id_on _ l2 (fun x hx => by rw [h1 x (by simp [hx])]; simp)]

theorem to_row_single_nonjson (sig : Sig) (k X : String) (ff : FieldInfo)
    (hf : sig.find k = Option.some ff) (hj : ff.is_json = false) :
    _to_row sig [(k, PyVal.str X)] = .ok [(k, PyVal.str X)] := by
  rw [_to_row, hf]
  simp [_to_row, encodeCell, hj]

/-- `read` filtered by one non-JSON text field is decoding of the matching
rows. -/
theorem read_single_str (sig : Sig) (incl : Bool) (k X : String) (ff : FieldInfo)
    (hf : sig.find k = Option.some ff) (hj : ff.is_json = false) (db : DB) :
    read sig incl Option.none 10 [(k, PyVal.str X)] db =
      (fromRows sig (db.rows.filter (rowMatches [(k, PyVal.str X)]
        (sig.soft_delete && !incl))), db) := by
  rw [read, to_row_single_nonjson sig k X ff hf hj]
  rfl

theorem rowMatches_single_false (k X : String) (softf : Bool) (r : Row)
    (h : rowGetD r k ≠ PyVal.str X) :
    rowMatches [(k, PyVal.str X)] softf r = false := by
  simp [rowMatches, sqlEq_str_of_ne X _ h]

theorem rowMatches_single_true (k X : String) (softf : Bool) (r : Row)
    (h : rowGetD r k = PyVal.str X) :
    rowMatches [(k, PyVal.str X)] softf r =
      (!softf || (rowGetD r "deleted_at" == PyVal.none)) := by
  simp [rowMatches, h, sqlEq_str_self]

theorem fromRowGo_keys (fs : List FieldInfo) (r : Row) (i : Inst)
    (h : fromRowGo r fs = .ok i) : i.map Prod.fst = fs.map FieldInfo.name := by
  induction fs generalizing i with
  | nil => simp [fromRowGo] at h; subst h; rfl
  | cons f fs ih =>
    rw [fromRowGo] at h
    cases hg : rowGet r f.name with
    | none => rw [hg] at h; simp at h
    | some cell =>
      rw [hg] at h
      dsimp only at h
      cases hd : decodeCell f cell with
      | error e => rw [hd] at h; simp at h
      | ok v =>
        rw [hd] at h
        cases ht : fromRowGo r fs with
        | error e => rw [ht] at h; simp at h
        | ok rest =>
          rw [ht] at h; simp at h; subst h
          simp [ih rest ht]

theorem rowGet_some_of_mem (r : List KV) (k : String) (h : k ∈ r.map Prod.fst) :
    ∃ v, rowGet r k = Option.some v := by
  induction r with
  | nil => simp at h
  | cons kv r ih =>
    by_cases he : kv.1 = k
    · exact ⟨kv.2, by simp [rowGet, he]⟩
    · have hk : k ∈ r.map Prod.fst := by
        simp only [List.map_cons, List.mem_cons] at h
        rcases h with h1 | h2
        · exact absurd h1.symm he
        · exact h2
      obtain ⟨v, hv⟩ := ih hk
      exact ⟨v, by simp [rowGet, beq_eq_false_iff_ne.2 he, hv]⟩

theorem hasField_mem_names (sig : Sig) (k : String) (h : sig.hasField k = true) :
    k ∈ sig.fields.map FieldInfo.name := by
  rw [Sig.hasField, Sig.find] at h
  obtain ⟨f, hmem, hbeq⟩ := List.find?_isSome.1 h
  exact List.mem_map.2 ⟨f, hmem, eq_of_beq hbeq⟩

/-- Decoding a row whose `deleted_at` cell was overwritten with a text value
yields the decoded instance with its `deleted_at` entry overwritten, provided
the type declares `deleted_at` as a plain (non-JSON, non-bool) field. -/
theorem fromRowGo_set_deleted (fs : List FieldInfo) (r : Row) (w : String) (i : Inst)
    (hf : ∀ f ∈ fs, f.name = "deleted_at" → f.is_json = false ∧ f.is_bool = false)
    (h : fromRowGo r fs = .ok i) :
    fromRowGo (setCell r "deleted_at" (PyVal.str w)) fs =
      .ok (setCell i "deleted_at" (PyVal.str w)) := by
  induction fs generalizing i with
  | nil => simp [fromRowGo] at h; subst h; rfl
  | cons f fs ih =>
    rw [fromRowGo] at h
    cases hg : rowGet r f.name with
    | none => rw [hg] at h; simp at h
    | some cell =>
      rw [hg] at h
      dsimp only at h
      cases hd : decodeCell f cell with
      | error e => rw [hd] at h; simp at h
      | ok v =>
        rw [hd] at h
        cases ht : fromRowGo r fs with
        | error e => rw [ht] at h; simp at h
        | ok rest =>
          rw [ht] at h; simp at h; subst h
          have hfs : ∀ f2 ∈ fs, f2.name = "deleted_at" → f2.is_json = false ∧ f2.is_bool = false :=
            fun f2 hf2 => hf f2 (by simp [hf2])
          by_cases hn : f.name = "deleted_at"
          · obtain ⟨hj, hb⟩ := hf f (by simp) hn
            rw [fromRowGo]
            rw [show rowGet (setCell r "deleted_at" (PyVal.str w)) f.name =
                Option.some (PyVal.str w) by
              rw [hn, rowGet_setCell_self, ← hn, hg]; rfl]
            dsimp only
            rw [show decodeCell f (PyVal.str w) = .ok (PyVal.str w) by
              rw [decodeCell_of_ne f _ (by simp), hj, hb]; simp]
            rw [ih rest hfs ht]
            simp [setCell, hn]
          · rw [fromRowGo]
            rw [show rowGet (setCell r "deleted_at" (PyVal.str w)) f.name =
                Option.some cell by rw [rowGet_setCell_ne r _ _ _ hn, hg]]
            dsimp only
            rw [hd]
            rw [ih rest hfs ht]
            simp [setCell, beq_eq_false_iff_ne.2 hn, hn]

/-- C2: on a soft-delete-capable type, for a stored record with id `X` and
null `deleted_at`, after `delete(id=X)` (soft), the default `read(id=X)`
returns the empty list while `read(id=X, include_deleted=true)` returns
exactly that record with its `deleted_at` set to the (non-null) deletion
timestamp. -/
theorem claim_C2_soft_delete (sig : Sig) (ts : Nat → String) (X : String)
    (l1 l2 : List Row) (r : Row) (i : Inst) (db : DB) (ff : FieldInfo)
    (hdelf : ∀ f ∈ sig.fields, f.name = "deleted_at" → f.is_json = false ∧ f.is_bool = false)
    (hsoft : sig.soft_delete = true)
    (hidf : sig.find "id" = Option.some ff) (hffj : ff.is_json = false)
    (hrows : db.rows = l1 ++ r :: l2)
    (hrid : rowGet r "id" = Option.some (PyVal.str X))
    (hrdel : rowGet r "deleted_at" = Option.some PyVal.none)
    (hothers : ∀ r2 ∈ l1 ++ l2, rowGetD r2 "id" ≠ PyVal.str X)
    (hdec : _from_row sig r = .ok i) :
    ∃ db2, delete sig ts [] false [("id", PyVal.str X)] db = (.ok [i], db2) ∧
      db2.rows = l1 ++ setCell r "deleted_at" (PyVal.str (ts db.timeCtr)) :: l2 ∧
      (read sig false Option.none 10 [("id", PyVal.str X)] db2).1 = .ok [] ∧
      (read sig true Option.none 10 [("id", PyVal.str X)] db2).1 =
        .ok [setCell i "deleted_at" (PyVal.str (ts db.timeCtr))] ∧
      rowGet (setCell i "deleted_at" (PyVal.str (ts db.timeCtr))) "deleted_at" =
        Option.some (PyVal.str (ts db.timeCtr)) := by
  have hpr : rowMatches [("id", PyVal.str X)] true r = true := by
    rw [rowMatches_single_true _ _ _ _ (by rw [rowGetD, hrid]; rfl)]
    rw [rowGetD, hrdel]
    rfl
  have hothersf : ∀ x ∈ l1 ++ l2, ∀ softf,
      rowMatches [("id", PyVal.str X)] softf x = false :=
    fun x hx softf => rowMatches_single_false _ _ _ _ (hothers x hx)
  have hflt : (l1 ++ r :: l2).filter (rowMatches [("id", PyVal.str X)] true) = [r] :=
    filter_middle _ l1 l2 r (fun x hx => hothersf x hx true) hpr
  have hread0 : read sig false Option.none 10 [("id", PyVal.str X)] db =
      (.ok [i], db) := by
    rw [read_single_str sig false "id" X ff hidf hffj]
    rw [hrows, show (sig.soft_delete && !false) = true by rw [hsoft]; rfl, hflt]
    rw [fromRows, hdec, fromRows]
  have hmap : (l1 ++ r :: l2).map (fun x => if rowMatches [("id", PyVal.str X)] true x
      then setCell x "deleted_at" (PyVal.str (ts db.timeCtr)) else x) =
      l1 ++ setCell r "deleted_at" (PyVal.str (ts db.timeCtr)) :: l2 :=
    map_if_middle _ _ l1 l2 r (fun x hx => hothersf x hx true) hpr
  have hr2id : rowGet (setCell r "deleted_at" (PyVal.str (ts db.timeCtr))) "id" =
      Option.some (PyVal.str X) := by
    rw [rowGet_setCell_ne r _ _ _ (by decide)]
    exact hrid
  have hr2del : rowGet (setCell r "deleted_at" (PyVal.str (ts db.timeCtr))) "deleted_at" =
      Option.some (PyVal.str (ts db.timeCtr)) := by
    rw [rowGet_setCell_self, hrdel]
    rfl
  refine ⟨⟨l1 ++ setCell r "deleted_at" (PyVal.str (ts db.timeCtr)) :: l2,
    db.uuidCtr, db.timeCtr + 1⟩, ?_, rfl, ?_, ?_, ?_⟩
  · rw [show delete sig ts [] false [("id", PyVal.str X)] db =
        deleteGo sig ts false [[("id", PyVal.str X)]] db from rfl]
    rw [deleteGo, deleteOne, hread0]
    try dsimp only
    rw [to_row_single_nonjson sig "id" X ff hidf hffj]
    try dsimp only
    rw [show (sig.soft_delete && !false) = true by rw [hsoft]; rfl]
    try dsimp only
    rw [hrows]
    show (Except.ok [i],
        (⟨(l1 ++ r :: l2).map (fun x =>
          if rowMatches [("id", PyVal.str X)] true x
          then setCell x "deleted_at" (PyVal.str (ts db.timeCtr)) else x),
          db.uuidCtr, db.timeCtr + 1⟩ : DB)) =
      (Except.ok [i],
        (⟨l1 ++ setCell r "deleted_at" (PyVal.str (ts db.timeCtr)) :: l2,
          db.uuidCtr, db.timeCtr + 1⟩ : DB))
    rw [hmap]
  · rw [read_single_str sig false "id" X ff hidf hffj]
    dsimp only
    rw [show (sig.soft_delete && !false) = true by rw [hsoft]; rfl]
    rw [show (l1 ++ setCell r "deleted_at" (PyVal.str (ts db.timeCtr)) :: l2).filter
        (rowMatches [("id", PyVal.str X)] true) = [] from List.filter_eq_nil_iff.2 ?_]
    · rfl
    · intro x hx
      rcases List.mem_append.1 hx with hx1 | hx2
      · simp [hothersf x (by simp [hx1]) true]
      · rcases List.mem_cons.1 hx2 with hx3 | hx4
        · subst hx3
          rw [rowMatches_single_true _ _ _ _ (by rw [rowGetD, hr2id]; rfl)]
          rw [rowGetD, hr2del]
          simp [BEq.beq, PyVal.beq]
        · simp [hothersf x (by simp [hx4]) true]
  · rw [read_single_str sig true "id" X ff hidf hffj]
    dsimp only
    rw [show (sig.soft_delete && !true) = false by rw [hsoft]; rfl]
    rw [filter_middle _ l1 l2 _ (fun x hx => hothersf x hx false)
      (by rw [rowMatches_single_true _ _ _ _ (by rw [rowGetD, hr2id]; rfl)]; rfl)]
    rw [fromRows, show _from_row sig (setCell r "deleted_at" (PyVal.str (ts db.timeCtr))) =
      .ok (setCell i "deleted_at" (PyVal.str (ts db.timeCtr))) from
      fromRowGo_set_deleted sig.fields r (ts db.timeCtr) i hdelf hdec]
    rw [fromRows]
  · rw [rowGet_setCell_self]
    obtain ⟨v, hv⟩ := rowGet_some_of_mem i "deleted_at"
      (by rw [fromRowGo_keys sig.fields r i hdec]
          exact hasField_mem_names sig "deleted_at" hsoft)
    rw [hv]
    rfl

/-- Witness for C2 at a concrete one-row soft-delete table. -/
theorem claim_C2_soft_delete_witness :
    ∃ db2, delete sigSoftIdName tsS [] false [("id", PyVal.str "a")] dbA = (.ok [rowA], db2) ∧
      db2.rows = [] ++ setCell rowA "deleted_at" (PyVal.str (tsS dbA.timeCtr)) :: [] ∧
      (read sigSoftIdName false Option.none 10 [("id", PyVal.str "a")] db2).1 = .ok [] ∧
      (read sigSoftIdName true Option.none 10 [("id", PyVal.str "a")] db2).1 =
        .ok [setCell rowA "deleted_at" (PyVal.str (tsS dbA.timeCtr))] ∧
      rowGet (setCell rowA "deleted_at" (PyVal.str (tsS dbA.timeCtr))) "deleted_at" =
        Option.some (PyVal.str (tsS dbA.timeCtr)) := by
  refine claim_C2_soft_delete sigSoftIdName tsS "a" [] [] rowA rowA dbA
    ⟨"id", false, false⟩ ?_ rfl rfl rfl rfl rfl rfl ?_ rfl
  · intro f hf hn
    fin_cases hf <;> simp_all
  · intro r2 hr2
    simp at hr2

/-! ### C4 -/

/-- An `INSERT` whose bound row names only schema columns and whose
affinity-converted form carries a fresh text id succeeds and appends the
completed converted row. -/
theorem insertRow_ok (sig : Sig) (row brow srow : List KV) (db : DB) (u : String)
    (hb : bindParams row = .ok brow)
    (hs : brow.map (fun kv => (kv.1, textAffinity kv.2)) = srow)
    (hcols : (brow.any fun kv => !sig.hasField kv.1) = false)
    (hgid : rowGetD srow "id" = PyVal.str u)
    (hfresh : ∀ r2 ∈ db.rows, rowGetD r2 "id" ≠ PyVal.str u) :
    insertRow sig row db = (.ok (), { db with rows := db.rows ++ [completeRow sig srow] }) := by
  rw [insertRow, hb]
  try dsimp only
  rw [hs]
  rw [if_neg (by simp [hcols])]
  rw [if_neg ?hpk]
  case hpk =>
    intro hcontra
    rw [hgid] at hcontra
    rcases (Bool.and_eq_true _ _).mp hcontra with ⟨h1, h2⟩
    obtain ⟨x, hx, hpx⟩ := List.any_eq_true.1 h2
    rw [sqlEq_str_of_ne u _ (hfresh x hx)] at hpx
    exact Bool.false_ne_true hpx

/-- Fetching by a fresh id right after the insert returns exactly the new
row. -/
theorem fetchById_fresh (u : String) (db : DB) (newRow : Row)
    (hfresh : ∀ r2 ∈ db.rows, rowGetD r2 "id" ≠ PyVal.str u)
    (hnew : rowGetD newRow "id" = PyVal.str u) :
    fetchById (PyVal.str u) { db with rows := db.rows ++ [newRow] } = [newRow] := by
  rw [fetchById]
  try dsimp only
  rw [List.filter_append]
  rw [List.filter_eq_nil_iff.2 (fun x hx => by simp [sqlEq_str_of_ne _ _ (hfresh x hx)])]
  simp [List.filter, hnew, sqlEq_str_self]

/-- C4 counterexample: `created_at` and `updated_at` are two separate clock
reads (`_now()` is called once for each), so under a clock that advances
between the two calls the created record's `created_at` is not equal to its
`updated_at`, contrary to the claim. -/
theorem claim_C4_cex :
    create sigComponent usS tsS [] [("name", PyVal.str "button")] dbEmpty =
      (.ok [[("id", PyVal.str "u0"), ("created_at", PyVal.str "t0"),
             ("updated_at", PyVal.str "t1"), ("deleted_at", PyVal.none),
             ("name", PyVal.str "button")]],
       ⟨[[("id", PyVal.str "u0"), ("created_at", PyVal.str "t0"),
          ("updated_at", PyVal.str "t1"), ("deleted_at", PyVal.none),
          ("name", PyVal.str "button")]], 1, 2⟩) ∧
    PyVal.str "t0" ≠ PyVal.str "t1" :=
  ⟨rfl, by simp⟩

/-- C4 (amended): on the scenario type `{id, created_at, updated_at,
deleted_at, name}`, `create(name="button")` returns exactly one instance with
the fresh non-null id, non-null `created_at` and `updated_at` (two successive
clock reads — equal exactly when the clock does not advance between them, as
hypothesised here), null `deleted_at` and the given name; a subsequent read
filtered by that id returns exactly that instance. -/
theorem claim_C4_amended (us ts : Nat → String) (db : DB)
    (hfresh : ∀ r2 ∈ db.rows, rowGetD r2 "id" ≠ PyVal.str (us db.uuidCtr))
    (hts : ts db.timeCtr = ts (db.timeCtr + 1)) :
    ∃ inst db2,
      create sigComponent us ts [] [("name", PyVal.str "button")] db = (.ok [inst], db2) ∧
      rowGet inst "id" = Option.some (PyVal.str (us db.uuidCtr)) ∧
      rowGet inst "created_at" = Option.some (PyVal.str (ts db.timeCtr)) ∧
      rowGet inst "updated_at" = Option.some (PyVal.str (ts (db.timeCtr + 1))) ∧
      rowGet inst "created_at" = rowGet inst "updated_at" ∧
      rowGet inst "deleted_at" = Option.some PyVal.none ∧
      rowGet inst "name" = Option.some (PyVal.str "button") ∧
      read sigComponent false Option.none 10 [("id", PyVal.str (us db.uuidCtr))] db2 =
        (.ok [inst], db2) := by
  refine ⟨[("id", PyVal.str (us db.uuidCtr)), ("created_at", PyVal.str (ts db.timeCtr)),
    ("updated_at", PyVal.str (ts (db.timeCtr + 1))), ("deleted_at", PyVal.none),
    ("name", PyVal.str "button")],
    ⟨db.rows ++ [[("id", PyVal.str (us db.uuidCtr)), ("created_at", PyVal.str (ts db.timeCtr)),
      ("updated_at", PyVal.str (ts (db.timeCtr + 1))), ("deleted_at", PyVal.none),
      ("name", PyVal.str "button")]], db.uuidCtr + 1, db.timeCtr + 2⟩,
    ?_, rfl, rfl, rfl, ?_, rfl, rfl, ?_⟩
  · rw [create_single_kwargs, createGo, createOne]
    rw [show _to_row sigComponent (List.filter (fun kv => !AUTO_FIELDS.contains kv.1)
      [("name", PyVal.str "button")]) = .ok [("name", PyVal.str "button")] from rfl]
    try dsimp only
    rw [show autoRow sigComponent ts ([("name", PyVal.str "button")] ++
        [("id", PyVal.str (us db.uuidCtr))]) ⟨db.rows, db.uuidCtr + 1, db.timeCtr⟩ =
      ([("name", PyVal.str "button"), ("id", PyVal.str (us db.uuidCtr)),
        ("created_at", PyVal.str (ts db.timeCtr)),
        ("updated_at", PyVal.str (ts (db.timeCtr + 1)))],
       ⟨db.rows, db.uuidCtr + 1, db.timeCtr + 2⟩) from rfl]
    try dsimp only
    rw [insertRow_ok sigComponent
      [("name", PyVal.str "button"), ("id", PyVal.str (us db.uuidCtr)),
       ("created_at", PyVal.str (ts db.timeCtr)),
       ("updated_at", PyVal.str (ts (db.timeCtr + 1)))]
      [("name", PyVal.str "button"), ("id", PyVal.str (us db.uuidCtr)),
       ("created_at", PyVal.str (ts db.timeCtr)),
       ("updated_at", PyVal.str (ts (db.timeCtr + 1)))]
      [("name", PyVal.str "button"), ("id", PyVal.str (us db.uuidCtr)),
       ("created_at", PyVal.str (ts db.timeCtr)),
       ("updated_at", PyVal.str (ts (db.timeCtr + 1)))]
      ⟨db.rows, db.uuidCtr + 1, db.timeCtr + 2⟩ (us db.uuidCtr) rfl rfl rfl rfl hfresh]
    try dsimp only
    rw [show completeRow sigComponent
      [("name", PyVal.str "button"), ("id", PyVal.str (us db.uuidCtr)),
       ("created_at", PyVal.str (ts db.timeCtr)),
       ("updated_at", PyVal.str (ts (db.timeCtr + 1)))] =
      [("id", PyVal.str (us db.uuidCtr)), ("created_at", PyVal.str (ts db.timeCtr)),
       ("updated_at", PyVal.str (ts (db.timeCtr + 1))), ("deleted_at", PyVal.none),
       ("name", PyVal.str "button")] from rfl]
    rw [fetchById_fresh (us db.uuidCtr) ⟨db.rows, db.uuidCtr + 1, db.timeCtr + 2⟩
      [("id", PyVal.str (us db.uuidCtr)), ("created_at", PyVal.str (ts db.timeCtr)),
       ("updated_at", PyVal.str (ts (db.timeCtr + 1))), ("deleted_at", PyVal.none),
       ("name", PyVal.str "button")] hfresh rfl]
    rfl
  · rw [show rowGet [("id", PyVal.str (us db.uuidCtr)), ("created_at", PyVal.str (ts db.timeCtr)),
      ("updated_at", PyVal.str (ts (db.timeCtr + 1))), ("deleted_at", PyVal.none),
      ("name", PyVal.str "button")] "created_at" = Option.some (PyVal.str (ts db.timeCtr))
      from rfl]
    rw [show rowGet [("id", PyVal.str (us db.uuidCtr)), ("created_at", PyVal.str (ts db.timeCtr)),
      ("updated_at", PyVal.str (ts (db.timeCtr + 1))), ("deleted_at", PyVal.none),
      ("name", PyVal.str "button")] "updated_at" = Option.some (PyVal.str (ts (db.timeCtr + 1)))
      from rfl]
    rw [hts]
  · rw [read_single_str sigComponent false "id" (us db.uuidCtr) ⟨"id", false, false⟩ rfl rfl]
    try dsimp only
    rw [show (sigComponent.soft_delete && !false) = true from rfl]
    rw [List.filter_append]
    rw [List.filter_eq_nil_iff.2 (fun x hx => by
      simp [rowMatches_single_false _ _ _ _ (hfresh x hx)])]
    rw [show List.filter (rowMatches [("id", PyVal.str (us db.uuidCtr))] true)
      [[("id", PyVal.str (us db.uuidCtr)), ("created_at", PyVal.str (ts db.timeCtr)),
        ("updated_at", PyVal.str (ts (db.timeCtr + 1))), ("deleted_at", PyVal.none),
        ("name", PyVal.str "button")]] =
      [[("id", PyVal.str (us db.uuidCtr)), ("created_at", PyVal.str (ts db.timeCtr)),
        ("updated_at", PyVal.str (ts (db.timeCtr + 1))), ("deleted_at", PyVal.none),
        ("name", PyVal.str "button")]] by
      have hm : rowMatches [("id", PyVal.str (us db.uuidCtr))] true
          [("id", PyVal.str (us db.uuidCtr)), ("created_at", PyVal.str (ts db.timeCtr)),
           ("updated_at", PyVal.str (ts (db.timeCtr + 1))), ("deleted_at", PyVal.none),
           ("name", PyVal.str "button")] = true := by
        rw [rowMatches_single_true _ _ _ _ (by rw [rowGetD]; rfl)]
        rfl
      simp [List.filter, hm]]
    rw [List.nil_append]
    rw [show fromRows sigComponent
      [[("id", PyVal.str (us db.uuidCtr)), ("created_at", PyVal.str (ts db.timeCtr)),
        ("updated_at", PyVal.str (ts (db.timeCtr + 1))), ("deleted_at", PyVal.none),
        ("name", PyVal.str "button")]] =
      .ok [[("id", PyVal.str (us db.uuidCtr)), ("created_at", PyVal.str (ts db.timeCtr)),
        ("updated_at", PyVal.str (ts (db.timeCtr + 1))), ("deleted_at", PyVal.none),
        ("name", PyVal.str "button")]] from rfl]

/-- Witness for C4 (amended) under a clock that stands still across the two
reads. -/
theorem claim_C4_amended_witness :
    ∃ inst db2,
      create sigComponent usS (fun _ => "now") [] [("name", PyVal.str "button")] dbEmpty =
        (.ok [inst], db2) ∧
      rowGet inst "id" = Option.some (PyVal.str (usS dbEmpty.uuidCtr)) ∧
      rowGet inst "created_at" = Option.some (PyVal.str "now") ∧
      rowGet inst "updated_at" = Option.some (PyVal.str "now") ∧
      rowGet inst "created_at" = rowGet inst "updated_at" ∧
      rowGet inst "deleted_at" = Option.some PyVal.none ∧
      rowGet inst "name" = Option.some (PyVal.str "button") ∧
      read sigComponent false Option.none 10 [("id", PyVal.str (usS dbEmpty.uuidCtr))] db2 =
        (.ok [inst], db2) :=
  claim_C4_amended usS (fun _ => "now") dbEmpty
    (fun r2 hr2 => by simp [dbEmpty] at hr2) rfl

/-! ### C6 -/

/-- Python's `(t + p - 1) // p` is the ceiling of `t / p` for positive `t`
and `p`. -/
theorem fdiv_ceil_eq (t p : Int) (hp : 0 < p) :
    Int.fdiv (t + p - 1) p = ⌈(t : ℚ) / (p : ℚ)⌉ := by
  rw [Int.fdiv_eq_ediv _ (le_of_lt hp)]
  have h0 := Int.ediv_add_emod (t + p - 1) p
  have h1 : 0 ≤ (t + p - 1) % p := Int.emod_nonneg _ (ne_of_gt hp)
  have h2 : (t + p - 1) % p < p := Int.emod_lt_of_pos _ hp
  have hpq : (0 : ℚ) < (p : ℚ) := by exact_mod_cast hp
  have hint1 : ((t + p - 1) / p - 1) * p < t := by nlinarith [h0, h1, h2]
  have hint2 : t ≤ (t + p - 1) / p * p := by nlinarith [h0, h1, h2]
  symm
  rw [Int.ceil_eq_iff]
  constructor
  · rw [lt_div_iff hpq]
    exact_mod_cast hint1
  · rw [div_le_iff hpq]
    exact_mod_cast hint2

/-- C6: `count` returns a `total` equal to the number of rows matching the
equality filters (soft-deleted rows excluded unless requested on a
soft-delete-capable type), `pages` equal to `⌈total / per_page⌉` when
`total > 0` and `0` when `total = 0`, and the given `per_page`. -/
theorem claim_C6_count (sig : Sig) (incl : Bool) (pp : Int) (kwargs : List KV)
    (db : DB) (c : Count) (db2 : DB) (hpp : 0 < pp)
    (h : count sig incl pp kwargs db = (.ok c, db2)) :
    (∃ conds bconds, _to_row sig kwargs = .ok conds ∧ bindParams conds = .ok bconds ∧
      c.total = ((db.rows.filter (rowMatches bconds (sig.soft_delete && !incl))).length : Int)) ∧
    (0 < c.total → c.pages = ⌈(c.total : ℚ) / (pp : ℚ)⌉) ∧
    (c.total = 0 → c.pages = 0) ∧
    c.per_page = pp := by
  rw [count] at h
  cases ht : _to_row sig kwargs with
  | error e => rw [ht] at h; simp at h
  | ok conds =>
    rw [ht] at h
    dsimp only at h
    cases hb : bindParams conds with
    | error e => rw [hb] at h; simp at h
    | ok bconds =>
      rw [hb] at h
      dsimp only at h
      split at h
      · rename_i hpos
        split at h
        · simp at h
        · rename_i hppz
          injection h with hok hdb
          injection hok with hc
          subst hc
          subst hdb
          exact ⟨⟨conds, bconds, rfl, hb, rfl⟩, fun h0 => fdiv_ceil_eq _ pp hpp,
            fun h0 => absurd (lt_of_lt_of_le hpos (le_of_eq h0)) (lt_irrefl 0), rfl⟩
      · rename_i hpos
        injection h with hok hdb
        injection hok with hc
        subst hc
        subst hdb
        exact ⟨⟨conds, bconds, rfl, hb, rfl⟩, fun h0 => absurd h0 hpos,
          fun h0 => rfl, rfl⟩

/-- Witness for C6 at a concrete one-row table. -/
theorem claim_C6_count_witness :
    (⟨1, 1, 10⟩ : Count).pages = ⌈((⟨1, 1, 10⟩ : Count).total : ℚ) / ((10 : Int) : ℚ)⌉ ∧
    (⟨1, 1, 10⟩ : Count).total = ((dbB.rows.filter
      (rowMatches [] (sigIdName.soft_delete && !false))).length : Int) := by
  have h := claim_C6_count sigIdName false 10 [] dbB ⟨1, 1, 10⟩ dbB (by decide) rfl
  obtain ⟨⟨conds, bconds, h1, h2, h3⟩, h4, h5, h6⟩ := h
  refine ⟨h4 (by decide), ?_⟩
  have hc : conds = [] := by simpa [_to_row] using h1.symm
  subst hc
  have hbc : bconds = [] := by simpa [bindParams] using h2.symm
  subst hbc
  exact h3

/-! ### C7 -/

theorem fromRows_ok_length (sig : Sig) (rs : List Row) (l : List Inst)
    (h : fromRows sig rs = .ok l) : l.length = rs.length := by
  induction rs generalizing l with
  | nil => simp [fromRows] at h; simp [← h]
  | cons r rs ih =>
    rw [fromRows] at h
    cases hf : _from_row sig r with
    | error e => rw [hf] at h; simp at h
    | ok i =>
      rw [hf] at h
      cases ht : fromRows sig rs with
      | error e => rw [ht] at h; simp at h
      | ok rest =>
        rw [ht] at h
        simp at h
        rw [← h]
        simp [ih rest ht]

theorem fromRows_take (sig : Sig) (rs : List Row) (l : List Inst) (n : Nat)
    (h : fromRows sig rs = .ok l) : fromRows sig (rs.take n) = .ok (l.take n) := by
  induction rs generalizing l n with
  | nil =>
    simp [fromRows] at h
    subst h
    simp [fromRows]
  | cons r rs ih =>
    rw [fromRows] at h
    cases hf : _from_row sig r with
    | error e => rw [hf] at h; simp at h
    | ok i =>
      rw [hf] at h
      cases ht : fromRows sig rs with
      | error e => rw [ht] at h; simp at h
      | ok rest =>
        rw [ht] at h
        simp at h
        cases n with
        | zero => simp [← h, fromRows]
        | succ n =>
          rw [List.take_succ_cons, fromRows, hf, ih rest n ht, ← h]
          simp

theorem fromRows_drop (sig : Sig) (rs : List Row) (l : List Inst) (n : Nat)
    (h : fromRows sig rs = .ok l) : fromRows sig (rs.drop n) = .ok (l.drop n) := by
  induction rs generalizing l n with
  | nil =>
    simp [fromRows] at h
    subst h
    simp [fromRows]
  | cons r rs ih =>
    rw [fromRows] at h
    cases hf : _from_row sig r with
    | error e => rw [hf] at h; simp at h
    | ok i =>
      rw [hf] at h
      cases ht : fromRows sig rs with
      | error e => rw [ht] at h; simp at h
      | ok rest =>
        rw [ht] at h
        simp at h
        cases n with
        | zero => simp [← h, fromRows, hf, ht]
        | succ n =>
          rw [List.drop_succ_cons, ih rest n ht, ← h]
          simp

/-- C7: when a page is given, `read`'s selection is the full (unpaginated)
result list sliced with limit `per_page` and offset
`(max 1 page - 1) * per_page` — in particular every page value `≤ 1` behaves
exactly as page 1 — and with 25 matching records, page 1 with page size 10
holds 10 records and page 3 holds 5. -/
theorem claim_C7_pagination (sig : Sig) (incl : Bool) (pp : Int) (kwargs : List KV)
    (db : DB) (l : List Inst) (hpp : 0 < pp)
    (hall : read sig incl Option.none pp kwargs db = (.ok l, db)) :
    (∀ p : Int, read sig incl (Option.some p) pp kwargs db =
      (.ok ((l.drop ((max 1 p - 1) * pp).toNat).take pp.toNat), db)) ∧
    (∀ p : Int, p ≤ 1 → read sig incl (Option.some p) pp kwargs db =
      read sig incl (Option.some 1) pp kwargs db) ∧
    (l.length = 25 → pp = 10 →
      (∃ l1, read sig incl (Option.some 1) pp kwargs db = (.ok l1, db) ∧ l1.length = 10) ∧
      (∃ l3, read sig incl (Option.some 3) pp kwargs db = (.ok l3, db) ∧ l3.length = 5)) := by
  rw [read] at hall
  cases ht : _to_row sig kwargs with
  | error e => rw [ht] at hall; simp at hall
  | ok conds =>
    rw [ht] at hall
    dsimp only at hall
    cases hb : bindParams conds with
    | error e => rw [hb] at hall; simp at hall
    | ok bconds =>
      rw [hb] at hall
      dsimp only at hall
      rw [show applyPage Option.none pp (db.rows.filter
        (rowMatches bconds (sig.soft_delete && !incl))) = db.rows.filter
        (rowMatches bconds (sig.soft_delete && !incl)) from rfl] at hall
      injection hall with hok hdb
      have hsel : fromRows sig (db.rows.filter (rowMatches bconds (sig.soft_delete && !incl))) =
          .ok l := hok
      have hmain : ∀ p : Int, read sig incl (Option.some p) pp kwargs db =
          (.ok ((l.drop ((max 1 p - 1) * pp).toNat).take pp.toNat), db) := by
        intro p
        rw [read, ht]
        try dsimp only
        rw [hb]
        try dsimp only
        rw [show applyPage (Option.some p) pp (db.rows.filter
          (rowMatches bconds (sig.soft_delete && !incl))) =
            ((db.rows.filter (rowMatches bconds (sig.soft_delete && !incl))).drop
              ((max 1 p - 1) * pp).toNat).take pp.toNat by
          rw [applyPage]
          try dsimp only
          rw [if_neg (by omega)]]
        rw [fromRows_take sig _ _ _ (fromRows_drop sig _ _ _ hsel)]
      refine ⟨hmain, ?_, ?_⟩
      · intro p hp
        rw [hmain p, hmain 1]
        rw [show max 1 p = 1 from by omega]
        norm_num
      · intro hlen hpp10
        subst hpp10
        constructor
        · exact ⟨_, hmain 1, by simp [hlen]⟩
        · exact ⟨_, hmain 3, by simp [hlen]⟩

/-- Witness for C7 on a concrete 25-row table. -/
theorem claim_C7_pagination_witness :
    (∃ l1, read (⟨[⟨"id", false, false⟩]⟩ : Sig) false (Option.some 1) 10 []
        ⟨(List.range 25).map (fun i => [("id", PyVal.str (toString i))]), 0, 0⟩ =
      (.ok l1, ⟨(List.range 25).map (fun i => [("id", PyVal.str (toString i))]), 0, 0⟩) ∧
      l1.length = 10) ∧
    (∃ l3, read (⟨[⟨"id", false, false⟩]⟩ : Sig) false (Option.some 3) 10 []
        ⟨(List.range 25).map (fun i => [("id", PyVal.str (toString i))]), 0, 0⟩ =
      (.ok l3, ⟨(List.range 25).map (fun i => [("id", PyVal.str (toString i))]), 0, 0⟩) ∧
      l3.length = 5) := by
  have h := claim_C7_pagination (⟨[⟨"id", false, false⟩]⟩ : Sig) false 10 []
    ⟨(List.range 25).map (fun i => [("id", PyVal.str (toString i))]), 0, 0⟩
    ((List.range 25).map (fun i => [("id", PyVal.str (toString i))]))
    (by decide) (by rfl)
  exact h.2.2 (by simp) rfl

/-- Witness for C8 (amended). -/
theorem claim_C8_amended_witness :
    read sigIdName false Option.none 10 [("zz", PyVal.int 1)] dbB =
      (.error (.keyError "Unknown field: zz"), dbB) ∧
    count sigIdName false 10 [("zz", PyVal.int 1)] dbB =
      (.error (.keyError "Unknown field: zz"), dbB) ∧
    delete sigIdName tsS [] false [("zz", PyVal.int 1)] dbB =
      (.error (.keyError "Unknown field: zz"), dbB) ∧
    create sigIdName usS tsS [] [("zz", PyVal.int 1)] dbB =
      (.error (.keyError "Unknown field: zz"), dbB) ∧
    update sigIdName tsS [] [("id", PyVal.str "a"), ("zz", PyVal.int 1)] dbB =
      (.error (.keyError "Unknown field: zz"), dbB) ∧
    update sigIdName tsS [] [("zz", PyVal.int 1)] dbB =
      (.error (.valueError "id required for update"), dbB) := by
  have h := claim_C8_amended sigIdName usS tsS dbB "zz" (PyVal.int 1) false false
    Option.none 10 (PyVal.str "a") rfl
  exact ⟨h.1, h.2.1, h.2.2.1, h.2.2.2.1 rfl, h.2.2.2.2.1 rfl rfl,
    h.2.2.2.2.2 (by decide)⟩

end Sqlow
